import Mathlib

/-!
Shallow embedding of the goki smart-wallet state module
(`src/programs/smart-wallet/src/state.rs`) and proofs about the claims of
its specification.

Machine integers are modelled as `Nat` (`u8`, `u32`, `u64`, `usize`) and
`Int` (`i64`); no operation of the embedded code can overflow on the inputs
the program admits, so no wraparound is modelled.  Rust `&mut self` methods
become state-passing functions returning the new record; fallible methods
return `Except`; a Rust method that can panic returns `PanicOr`.
-/

namespace Goki

/-- A Solana public key: 32 bytes, modelled as their numeric value. -/
structure Pubkey where
  val : Fin (2 ^ 256)
deriving DecidableEq

/-- `Pubkey::default()`: the all-zero key, also the "distinguished empty value". -/
def Pubkey.default : Pubkey := ⟨⟨0, by norm_num⟩⟩

/-- The error codes of the program that the embedded state code can raise
(`program_err!(BufferBundleNotFound)`, `unwrap_opt!(.., InvalidOwner)`), plus
`BufferFinalized`, raised by the SetBundle entry point. -/
inductive GokiError where
  | InvalidOwner
  | BufferBundleNotFound
  | BufferFinalized
deriving DecidableEq

/-- The outcome of a Rust computation that can panic. -/
inductive PanicOr (α : Type) where
  | panic
  | value (a : α)
deriving DecidableEq

/-- `PartialSigner`: a partial signer that signs things for a SmartWallet.
`index : u64`, `bump : u8`. -/
structure PartialSigner where
  index : Nat
  bump : Nat
deriving DecidableEq

/-- `TXAccountMeta`: account metadata used to define TXInstructions. -/
structure TXAccountMeta where
  pubkey : Pubkey
  is_signer : Bool
  is_writable : Bool
deriving DecidableEq

/-- `TXInstruction`: an instruction stored in a Transaction. -/
structure TXInstruction where
  program_id : Pubkey
  keys : List TXAccountMeta
  data : List Nat
  partial_signers : List PartialSigner
deriving DecidableEq

/-- `solana_program::instruction::AccountMeta`. -/
structure AccountMeta where
  pubkey : Pubkey
  is_signer : Bool
  is_writable : Bool
deriving DecidableEq

/-- `solana_program::instruction::Instruction`: the dispatchable form. -/
structure Instruction where
  program_id : Pubkey
  accounts : List AccountMeta
  data : List Nat
deriving DecidableEq

/-- `SmartWallet`: a multisig wallet with timelock capabilities. -/
structure SmartWallet where
  base : Pubkey
  bump : Nat
  threshold : Nat
  minimum_delay : Int
  grace_period : Int
  owner_set_seqno : Nat
  num_transactions : Nat
  owners : List Pubkey
  reserved : List Nat
deriving DecidableEq

/-- `Transaction`: a series of instructions that may be executed by a
SmartWallet. -/
structure Transaction where
  smart_wallet : Pubkey
  index : Nat
  bump : Nat
  proposer : Pubkey
  instructions : List TXInstruction
  signers : List Bool
  owner_set_seqno : Nat
  eta : Int
  executor : Pubkey
  executed_at : Int
deriving DecidableEq

/-- `Transaction::default()` from `#[derive(Default)]`: every field takes its
type's default — zero for the integers, the all-zero key, empty vectors. -/
def Transaction.default : Transaction :=
  { smart_wallet := Pubkey.default
    index := 0
    bump := 0
    proposer := Pubkey.default
    instructions := []
    signers := []
    owner_set_seqno := 0
    eta := 0
    executor := Pubkey.default
    executed_at := 0 }

/-- The "not executed" sentinel for `Transaction.executed_at`, from the
field's documentation in state.rs: "When the transaction was executed.
-1 if not executed." -/
def NOT_EXECUTED_SENTINEL : Int := -1

/-- `SubaccountType`: type of subaccount. -/
inductive SubaccountType where
  | Derived
  | OwnerInvoker
deriving DecidableEq

/-- `impl Default for SubaccountType`: `SubaccountType::Derived`. -/
def SubaccountType.default : SubaccountType := .Derived

/-- `SubaccountInfo`: mapping of a subaccount to its SmartWallet. -/
structure SubaccountInfo where
  smart_wallet : Pubkey
  subaccount_type : SubaccountType
  index : Nat
deriving DecidableEq

/-- `SubaccountInfo::LEN`, exactly as written in the source: `32 + 1 + 8`. -/
def SubaccountInfo.LEN : Nat := 32 + 1 + 8

/-- `SubaccountInfo::default()` from `#[derive(Default)]`. -/
def SubaccountInfo.default : SubaccountInfo :=
  { smart_wallet := Pubkey.default
    subaccount_type := SubaccountType.default
    index := 0 }

/-- `InstructionBundle`: a container holding a bundle of instructions. -/
structure InstructionBundle where
  is_executed : Bool
  instructions : List TXInstruction
deriving DecidableEq

/-- `InstructionBuffer`: an account which holds an array of instruction
bundles to be executed. -/
structure InstructionBuffer where
  owner_set_seqno : Nat
  eta : Int
  authority : Pubkey
  executor : Pubkey
  smart_wallet : Pubkey
  bundles : List InstructionBundle
deriving DecidableEq

/-- `Iterator::position` on a list of keys: index of the first element equal
to `key`, or `none` (this is what `owners.iter().position(|a| *a == key)`
computes). -/
def position (key : Pubkey) : List Pubkey → Option Nat
  | [] => none
  | a :: rest => if a = key then some 0 else (position key rest).map (· + 1)

/-- `SmartWallet::owner_index_opt`: the index of the key in the owners Vec,
or None. -/
def SmartWallet.owner_index_opt (w : SmartWallet) (key : Pubkey) : Option Nat :=
  position key w.owners

/-- `SmartWallet::try_owner_index`: the index of the key in the owners Vec,
or the `InvalidOwner` error (`unwrap_opt!(self.owner_index_opt(key), InvalidOwner)`). -/
def SmartWallet.try_owner_index (w : SmartWallet) (key : Pubkey) :
    Except GokiError Nat :=
  match w.owner_index_opt key with
  | some i => .ok i
  | none => .error .InvalidOwner

/-- `Transaction::num_signers`: `signers.iter().filter(|&did_sign| *did_sign).count()`. -/
def Transaction.num_signers (t : Transaction) : Nat :=
  (t.signers.filter (fun did_sign => did_sign)).length

/-- `InstructionBuffer::is_finalized`: `authority == Pubkey::default()`. -/
def InstructionBuffer.is_finalized (b : InstructionBuffer) : Bool :=
  b.authority = Pubkey.default

/-- `InstructionBuffer::get_bundle`: `let (_, right) = self.bundles.split_at(bundle_index)`
— `split_at(mid)` panics when `mid > len` — then `None` if `right` is empty,
else a clone of `right[0]`. -/
def InstructionBuffer.get_bundle (b : InstructionBuffer) (bundle_index : Nat) :
    PanicOr (Option InstructionBundle) :=
  if bundle_index ≤ b.bundles.length then
    match b.bundles.drop bundle_index with
    | [] => .value none
    | x :: _ => .value (some x)
  else .panic

/-- `InstructionBuffer::set_bundle`: overwrite through `get_mut(bundle_index)`
when the slot exists, push when `bundle_index == bundles.len()`, otherwise
`program_err!(BufferBundleNotFound)`.  The `&mut self` mutation is modelled by
returning the new buffer. -/
def InstructionBuffer.set_bundle (b : InstructionBuffer) (bundle_index : Nat)
    (new_bundle : InstructionBundle) : Except GokiError InstructionBuffer :=
  if bundle_index < b.bundles.length then
    .ok { b with bundles := b.bundles.set bundle_index new_bundle }
  else if bundle_index = b.bundles.length then
    .ok { b with bundles := b.bundles ++ [new_bundle] }
  else
    .error .BufferBundleNotFound

/-- Modelled from the spec: the SetBundle entry point.  The instruction
handler that wraps `InstructionBuffer::set_bundle` is not under src/; per the
spec, "after finalization, `SetBundle` must FAIL(BufferFinalized) for all
indices", so the entry point rejects a finalized buffer and otherwise defers
to `InstructionBuffer::set_bundle` from state.rs. -/
def setBundleOp (b : InstructionBuffer) (bundle_index : Nat)
    (new_bundle : InstructionBundle) : Except GokiError InstructionBuffer :=
  if b.is_finalized then .error .BufferFinalized
  else b.set_bundle bundle_index new_bundle

/-- Modelled from the spec: the execute-time quorum check, "require
`count(approvals where true) ≥ wallet.threshold`" — the execute handler is
not under src/, only `num_signers` is. -/
def thresholdSatisfied (w : SmartWallet) (t : Transaction) : Bool :=
  w.threshold ≤ t.num_signers

/-- `From<TXAccountMeta> for AccountMeta`: fieldwise. -/
def TXAccountMeta.toAccountMeta (m : TXAccountMeta) : AccountMeta :=
  { pubkey := m.pubkey
    is_signer := m.is_signer
    is_writable := m.is_writable }

/-- `From<&TXInstruction> for Instruction`: program id and data cloned, keys
converted elementwise; `partial_signers` is not read. -/
def TXInstruction.toInstruction (tx : TXInstruction) : Instruction :=
  { program_id := tx.program_id
    accounts := tx.keys.map TXAccountMeta.toAccountMeta
    data := tx.data }

/-- `size_of::<Pubkey>()`: a `[u8; 32]`, 32 bytes. -/
def sizeOfPubkey : Nat := 32

/-- `size_of::<TXAccountMeta>()` under repr(C): pubkey 32 bytes (alignment 1),
is_signer 1, is_writable 1; no padding — 34. -/
def sizeOfTXAccountMeta : Nat := 34

/-- `size_of::<PartialSigner>()` under repr(C): index u64 (8, alignment 8),
bump u8 (1), 7 bytes of tail padding — 16. -/
def sizeOfPartialSigner : Nat := 16

/-- `size_of::<SmartWallet>()` under repr(C) on the 64-bit target:
base 0..32, bump 32..33 (pad to 40), threshold 40..48, minimum_delay 48..56,
grace_period 56..64, owner_set_seqno 64..68 (pad to 72), num_transactions
72..80, owners (Vec header, 24 bytes) 80..104, reserved ([u64; 16], 128
bytes) 104..232 — 232. -/
def sizeOfSmartWallet : Nat := 232

/-- `size_of::<Transaction>()` under repr(C) on the 64-bit target:
smart_wallet 0..32, index 32..40, bump 40..41, proposer 41..73 (pad to 80),
instructions (Vec header) 80..104, signers (Vec header) 104..128,
owner_set_seqno 128..132 (pad to 136), eta 136..144, executor 144..176,
executed_at 176..184 — 184. -/
def sizeOfTransaction : Nat := 184

/-- `SmartWallet::space(max_owners)`:
`4 + size_of::<SmartWallet>() + 4 + size_of::<Pubkey>() * max_owners`. -/
def SmartWallet.space (max_owners : Nat) : Nat :=
  4 + sizeOfSmartWallet + 4 + sizeOfPubkey * max_owners

/-- `TXInstruction::space(&self)`:
`size_of::<Pubkey>() + keys.len() * size_of::<TXAccountMeta>() + data.len()
+ partial_signers.len() * size_of::<PartialSigner>()`. -/
def TXInstruction.space (ix : TXInstruction) : Nat :=
  sizeOfPubkey + ix.keys.length * sizeOfTXAccountMeta + ix.data.length
    + ix.partial_signers.length * sizeOfPartialSigner

/-- `Transaction::space(instructions)`:
`4 + size_of::<Transaction>() + 4 + sum of each instruction's space`. -/
def Transaction.space (instructions : List TXInstruction) : Nat :=
  4 + sizeOfTransaction + 4 + (instructions.map TXInstruction.space).sum

/-- Serialized size of one `TXAccountMeta` per the spec layout: a 32-byte key
and two 1-byte flags. -/
def TXAccountMeta.serializedSize : Nat := 32 + 1 + 1

/-- Serialized size of one `PartialSigner` per the spec layout: a u64 index
and a u8 bump. -/
def PartialSigner.serializedSize : Nat := 8 + 1

/-- Modelled from the spec: the exact serialized byte footprint of a
`TXInstruction` — the derived serializer is not under src/; the spec fixes
the layout as the fields in declaration order with every variable-length
sequence length-prefixed (4-byte prefix): program id (32), keys, data,
partial_signers. -/
def TXInstruction.serializedSize (ix : TXInstruction) : Nat :=
  32 + (4 + ix.keys.length * TXAccountMeta.serializedSize)
    + (4 + ix.data.length)
    + (4 + ix.partial_signers.length * PartialSigner.serializedSize)

/-- Serialized size of the body of a `SubaccountInfo` per the spec layout:
wallet reference (32 bytes), subaccount-type discriminant (1 byte),
index u64 (8 bytes). -/
def subaccountInfoSerializedSize : Nat := 32 + 1 + 8

/-- A nonzero key, for concrete examples. -/
def pkA : Pubkey := ⟨⟨1, by norm_num⟩⟩

/-- A second nonzero key. -/
def pkB : Pubkey := ⟨⟨2, by norm_num⟩⟩

/-- A third nonzero key, not an owner of `sampleWallet`. -/
def pkC : Pubkey := ⟨⟨3, by norm_num⟩⟩

/-- A concrete empty bundle. -/
def sampleBundle : InstructionBundle := { is_executed := false, instructions := [] }

/-- A concrete finalized buffer (authority is the empty key) with no bundles. -/
def finalizedBuffer : InstructionBuffer :=
  { owner_set_seqno := 0
    eta := 0
    authority := Pubkey.default
    executor := pkA
    smart_wallet := pkB
    bundles := [] }

/-- A concrete non-finalized buffer holding one bundle. -/
def activeBuffer : InstructionBuffer :=
  { owner_set_seqno := 0
    eta := 0
    authority := pkA
    executor := pkB
    smart_wallet := pkC
    bundles := [sampleBundle] }

/-- A concrete wallet with owners `[pkA, pkB]`. -/
def sampleWallet : SmartWallet :=
  { base := Pubkey.default
    bump := 0
    threshold := 2
    minimum_delay := 0
    grace_period := 0
    owner_set_seqno := 0
    num_transactions := 0
    owners := [pkA, pkB]
    reserved := List.replicate 16 0 }

/-- The instruction with no keys, no data and no partial signers. -/
def emptyIx : TXInstruction :=
  { program_id := Pubkey.default, keys := [], data := [], partial_signers := [] }

/-- C1 counterexample: on a buffer whose bundles list is empty, GetBundle at
index 1 — strictly greater than the length — aborts (the underlying
`split_at` panics) instead of returning "absent" (None). -/
theorem C1_get_bundle_panic_cex :
    finalizedBuffer.get_bundle 1 = PanicOr.panic ∧
    finalizedBuffer.get_bundle 1 ≠ PanicOr.value none := by
  exact ⟨rfl, by decide⟩

/-- C1 (amended): GetBundle is a pure read that returns a copy of the bundle
at position i when i < bundles.length, returns "absent" (None) when
i = bundles.length, and aborts (the underlying `split_at` panics) whenever
i is strictly greater than the length. -/
theorem C1_get_bundle_cases (b : InstructionBuffer) (i : Nat) :
    b.get_bundle i =
      if h : i < b.bundles.length then PanicOr.value (some b.bundles[i])
      else if i = b.bundles.length then PanicOr.value none
      else PanicOr.panic := by
  unfold InstructionBuffer.get_bundle
  by_cases h1 : i < b.bundles.length
  · rw [dif_pos h1, if_pos (Nat.le_of_lt h1), List.drop_eq_getElem_cons h1]
  · rw [dif_neg h1]
    by_cases h2 : i = b.bundles.length
    · subst h2
      rw [if_pos (Nat.le_refl _), if_pos rfl, List.drop_length]
    · rw [if_neg h2, if_neg (by omega)]

/-- C2: on a finalized buffer (one whose authority is the distinguished empty
key), the SetBundle entry point fails with BufferFinalized at every index,
producing no new buffer state (the buffer is unchanged). -/
theorem C2_set_bundle_finalized (b : InstructionBuffer) (i : Nat)
    (nb : InstructionBundle) (h : b.is_finalized = true) :
    setBundleOp b i nb = Except.error GokiError.BufferFinalized := by
  unfold setBundleOp
  rw [if_pos h]

/-- C2 witness: the concrete finalized buffer rejects a SetBundle at index 0. -/
theorem C2_set_bundle_finalized_witness :
    setBundleOp finalizedBuffer 0 sampleBundle =
      Except.error GokiError.BufferFinalized :=
  C2_set_bundle_finalized finalizedBuffer 0 sampleBundle (by decide)

/-- C4 counterexample: a default-initialized Transaction has executed_at = 0 —
the ambiguous timestamp the claim rules out — and not the documented -1
sentinel. -/
theorem C4_default_executed_at_cex :
    Transaction.default.executed_at = 0 ∧
    Transaction.default.executed_at ≠ NOT_EXECUTED_SENTINEL := by
  exact ⟨rfl, by decide⟩

/-- C4 (amended): the documented "not executed" sentinel for executed_at is
-1, which is non-zero and so distinguishable from the ambiguous timestamp 0;
but a freshly default-initialized Transaction holds executed_at = 0, not the
sentinel — creation code must assign -1 explicitly. -/
theorem C4_sentinel :
    NOT_EXECUTED_SENTINEL = -1 ∧ NOT_EXECUTED_SENTINEL ≠ 0 ∧
    Transaction.default.executed_at = 0 := by
  exact ⟨rfl, by decide, rfl⟩

/-- C5 counterexample: for the instruction with no keys, no data and no
partial signers, TXInstruction::space is 32 while the exact serialized size
of the instruction is 44 — the three 4-byte length prefixes are not counted. -/
theorem C5_space_cex :
    TXInstruction.space emptyIx = 32 ∧
    TXInstruction.serializedSize emptyIx = 44 ∧
    TXInstruction.space emptyIx ≠ TXInstruction.serializedSize emptyIx := by
  refine ⟨rfl, rfl, by decide⟩

/-- C5 (amended): the space functions compute storage formulas built from
in-memory repr(C) sizes, not the exact serialized footprint:
SmartWallet::space(n) = 240 + 32·n, Transaction::space is 192 plus the sum of
the instructions' space, and TXInstruction::space =
32 + 34·|keys| + |data| + 16·|partial_signers|, which differs from the
instruction's exact serialized size for every instruction — it omits the
12 bytes of length prefixes and counts 16 rather than 9 bytes per partial
signer, so space + 12 = serializedSize + 7·|partial_signers| and the two are
never equal. -/
theorem C5_space_formulas (n : Nat) (ixs : List TXInstruction)
    (ix : TXInstruction) :
    SmartWallet.space n = 240 + 32 * n ∧
    Transaction.space ixs = 192 + (ixs.map TXInstruction.space).sum ∧
    TXInstruction.space ix + 12 =
      TXInstruction.serializedSize ix + 7 * ix.partial_signers.length ∧
    TXInstruction.space ix ≠ TXInstruction.serializedSize ix := by
  unfold SmartWallet.space Transaction.space TXInstruction.space
    TXInstruction.serializedSize
  unfold sizeOfPubkey sizeOfSmartWallet sizeOfTransaction sizeOfTXAccountMeta
    sizeOfPartialSigner TXAccountMeta.serializedSize PartialSigner.serializedSize
  refine ⟨by ring, rfl, by ring, ?_⟩
  omega

/-- C8: a SubaccountInfo is a fixed-size record of exactly 41 bytes:
SubaccountInfo::LEN equals 41, the sum 32 + 1 + 8 of the serialized sizes of
its wallet reference, its subaccount-type discriminant and its index. -/
theorem C8_subaccount_info_len :
    SubaccountInfo.LEN = 41 ∧ SubaccountInfo.LEN = 32 + 1 + 8 ∧
    SubaccountInfo.LEN = subaccountInfoSerializedSize := by
  exact ⟨rfl, rfl, rfl⟩

/-- C9: converting a TXInstruction to a dispatchable Instruction preserves its
content exactly — program id unchanged, the account list is the keys mapped
elementwise with pubkey, is_signer and is_writable unchanged and in order,
data unchanged — and partial_signers has no effect: replacing it by any list
yields the same converted instruction. -/
theorem C9_toInstruction_preserves (tx : TXInstruction)
    (ps : List PartialSigner) :
    tx.toInstruction.program_id = tx.program_id ∧
    tx.toInstruction.accounts =
      tx.keys.map (fun m =>
        { pubkey := m.pubkey
          is_signer := m.is_signer
          is_writable := m.is_writable }) ∧
    tx.toInstruction.data = tx.data ∧
    TXInstruction.toInstruction { tx with partial_signers := ps } =
      tx.toInstruction := by
  exact ⟨rfl, rfl, rfl, rfl⟩

/-- C10: the default SubaccountType is Derived, and a default-initialized
SubaccountInfo selects the full-quorum Derived trust mode, never the
OwnerInvoker fast path. -/
theorem C10_default_subaccount :
    SubaccountType.default = SubaccountType.Derived ∧
    SubaccountInfo.default.subaccount_type = SubaccountType.Derived ∧
    SubaccountInfo.default.subaccount_type ≠ SubaccountType.OwnerInvoker := by
  exact ⟨rfl, rfl, by decide⟩

/-- C3: on a non-finalized buffer, SetBundle at an index below the length
overwrites that slot with the new bundle, changing neither the length nor any
other slot; at the index equal to the length it appends, increasing the
length by exactly one; at any larger index it fails with BufferBundleNotFound
and the bundles sequence is unchanged (no new state is produced). -/
theorem C3_set_bundle_cases (b : InstructionBuffer) (i : Nat)
    (nb : InstructionBundle) (hf : b.is_finalized = false) :
    (∀ _h : i < b.bundles.length, ∃ b2,
        setBundleOp b i nb = Except.ok b2 ∧
        b2.bundles.length = b.bundles.length ∧
        b2.bundles[i]? = some nb ∧
        ∀ j, j ≠ i → b2.bundles[j]? = b.bundles[j]?) ∧
    (i = b.bundles.length → ∃ b2,
        setBundleOp b i nb = Except.ok b2 ∧
        b2.bundles = b.bundles ++ [nb] ∧
        b2.bundles.length = b.bundles.length + 1) ∧
    (b.bundles.length < i →
        setBundleOp b i nb = Except.error GokiError.BufferBundleNotFound) := by
  have hop : setBundleOp b i nb = b.set_bundle i nb := by
    unfold setBundleOp
    rw [hf]
    simp
  refine ⟨?_, ?_, ?_⟩
  · intro h
    refine ⟨{ b with bundles := b.bundles.set i nb }, ?_, ?_, ?_, ?_⟩
    · rw [hop]
      unfold InstructionBuffer.set_bundle
      rw [if_pos h]
    · simp
    · simpa using List.getElem?_set_eq_of_lt nb h
    · intro j hj
      simpa using List.getElem?_set_ne (Ne.symm hj)
  · intro h
    refine ⟨{ b with bundles := b.bundles ++ [nb] }, ?_, rfl, by simp⟩
    rw [hop]
    unfold InstructionBuffer.set_bundle
    rw [if_neg (by omega), if_pos h]
  · intro h
    rw [hop]
    unfold InstructionBuffer.set_bundle
    rw [if_neg (by omega), if_neg (by omega)]

/-- C3 witness: on the concrete non-finalized one-bundle buffer, SetBundle at
index 0 overwrites in place. -/
theorem C3_set_bundle_cases_witness :
    ∃ b2, setBundleOp activeBuffer 0 sampleBundle = Except.ok b2 ∧
      b2.bundles.length = activeBuffer.bundles.length ∧
      b2.bundles[0]? = some sampleBundle ∧
      ∀ j, j ≠ 0 → b2.bundles[j]? = activeBuffer.bundles[j]? :=
  (C3_set_bundle_cases activeBuffer 0 sampleBundle (by decide)).1 (by decide)

/-- On success, `position` returns an in-range index of the first occurrence
of the key. -/
theorem position_some (k : Pubkey) :
    ∀ (l : List Pubkey) (i : Nat), position k l = some i →
      l[i]? = some k ∧ ∀ j, j < i → l[j]? ≠ some k
  | [], i, h => by simp [position] at h
  | a :: rest, i, h => by
    unfold position at h
    by_cases ha : a = k
    · rw [if_pos ha] at h
      injection h with h
      subst h
      subst ha
      exact ⟨by simp, fun j hj => absurd hj (Nat.not_lt_zero j)⟩
    · rw [if_neg ha] at h
      cases hp : position k rest with
      | none =>
        rw [hp] at h
        exact absurd h (by simp)
      | some i0 =>
        rw [hp] at h
        simp only [Option.map_some'] at h
        injection h with h
        subst h
        obtain ⟨hget, hfirst⟩ := position_some k rest i0 hp
        refine ⟨by simpa using hget, ?_⟩
        intro j hj
        cases j with
        | zero => simpa using ha
        | succ j0 =>
          have := hfirst j0 (by omega)
          simpa using this

/-- `position` returns `none` exactly when the key does not occur. -/
theorem position_none (k : Pubkey) :
    ∀ l : List Pubkey, position k l = none ↔ k ∉ l
  | [] => by simp [position]
  | a :: rest => by
    unfold position
    by_cases ha : a = k
    · rw [if_pos ha]
      simp [ha]
    · rw [if_neg ha]
      constructor
      · intro h hmem
        rcases List.mem_cons.mp hmem with h1 | h1
        · exact ha h1.symm
        · exact (position_none k rest).mp (by simpa using h) h1
      · intro h
        have hrest : k ∉ rest := fun hm => h (List.mem_cons_of_mem _ hm)
        rw [(position_none k rest).mpr hrest]
        rfl

/-- C6: owner_index_opt returns the index of the first occurrence of the key
when it is an owner (so the owner at that index is the key and no earlier
index holds it) and none exactly when the key is not in the owner set;
try_owner_index returns exactly that index, and fails with InvalidOwner
exactly when the key is not in the owner set. -/
theorem C6_owner_index (w : SmartWallet) (k : Pubkey) :
    (∀ i, w.owner_index_opt k = some i →
        w.owners[i]? = some k ∧ ∀ j, j < i → w.owners[j]? ≠ some k) ∧
    (w.owner_index_opt k = none ↔ k ∉ w.owners) ∧
    (∀ i, w.try_owner_index k = Except.ok i ↔ w.owner_index_opt k = some i) ∧
    (w.try_owner_index k = Except.error GokiError.InvalidOwner ↔
      k ∉ w.owners) := by
  refine ⟨fun i h => position_some k w.owners i h, position_none k w.owners,
    ?_, ?_⟩
  · intro i
    unfold SmartWallet.try_owner_index
    cases hp : w.owner_index_opt k with
    | none => simp
    | some i0 => simp
  · unfold SmartWallet.try_owner_index
    rw [← position_none k w.owners]
    show (match w.owner_index_opt k with
      | some i => Except.ok i
      | none => Except.error GokiError.InvalidOwner) =
        Except.error GokiError.InvalidOwner ↔ _
    cases hp : w.owner_index_opt k with
    | none =>
      rw [show position k w.owners = none from hp]
      simp
    | some i0 =>
      rw [show position k w.owners = some i0 from hp]
      simp

/-- Counting the true entries of a Boolean list equals counting the indices
at which the list holds true. -/
theorem filter_length_eq_range_count (l : List Bool) :
    (l.filter (fun did_sign => did_sign)).length =
      ((List.range l.length).filter (fun i => l.getD i false)).length := by
  induction l with
  | nil => rfl
  | cons a t ih =>
    rw [List.length_cons, List.range_succ_eq_map, List.filter_cons,
      List.filter_cons]
    simp only [List.getD_cons_zero, List.filter_map, List.length_map,
      Function.comp_def, List.getD_cons_succ]
    cases a <;> simp [ih]

/-- C7: num_signers is exactly the number of indices whose signers entry is
true, and the execute-time quorum check compares exactly this count against
the wallet's threshold with ≥. -/
theorem C7_num_signers_count (t : Transaction) (w : SmartWallet) :
    t.num_signers =
      ((List.range t.signers.length).filter
        (fun i => t.signers.getD i false)).length ∧
    (thresholdSatisfied w t = true ↔
      w.threshold ≤
        ((List.range t.signers.length).filter
          (fun i => t.signers.getD i false)).length) := by
  have h := filter_length_eq_range_count t.signers
  refine ⟨h, ?_⟩
  unfold thresholdSatisfied Transaction.num_signers
  rw [h, decide_eq_true_iff]

end Goki
